import Mathlib

/-!
Shallow embedding of the escrow settlement engine of `src/src/lib.rs`
(Soroban contract `EscrowContract`): data model, governance calls,
`accept_order` and its helpers, plus a small operation/trace semantics
used to state the reachability and invariant claims.

Storage is modelled as explicit record state: the instance storage keys
(`Admin`, `FeeRate`, `FeeTreasury`, `DisputeResolver`, `IsPaused`,
`OrderCount`) become `Option`-valued fields (a `none` field is an absent
key), and the persistent keys (`Order(id)`, `UserOrders(addr)`) become
association lists.  The external authorization oracle (`require_auth`)
and the external token-transfer primitive are modelled by per-call
oracle data in `CallCtx`; a contract call returns the (possibly
mutated) state together with `Option Error` (`none` = `Ok(())`), and
every error path returns the state exactly as mutated so far, so frame
properties are theorems rather than modelling artifacts.
-/

namespace Aframp

/-- Principal identifier (a wallet or contract address). -/
abbrev Address := Nat

/-- Contract error enum of `src/src/lib.rs`. -/
inductive Error where
  | AlreadyInitialized
  | NotInitialized
  | Unauthorized
  | InvalidFeeRate
  | ContractPaused
  | OrderNotFound
  | InvalidOrderStatus
  | OrderExpired
  | CannotAcceptOwnOrder
  | TransferFailed
deriving DecidableEq, Repr

/-- Order status enum of `src/src/lib.rs`. -/
inductive OrderStatus where
  | Open
  | Locked
  | PaymentSent
  | Completed
  | Disputed
  | Cancelled
deriving DecidableEq, Repr

/-- The `Order` struct of `src/src/lib.rs` (`Symbol` and `String` both
become Lean `String`; `i128` becomes `Int`; `u64` becomes `Nat`). -/
structure Order where
  id : Nat
  seller : Address
  buyer : Option Address
  token : Address
  amount : Int
  fiat_currency : String
  fiat_amount : Int
  rate : Int
  status : OrderStatus
  created_at : Nat
  expires_at : Nat
  payment_method : String
deriving DecidableEq, Repr

/-- Lookup in an association-list store: the most recent binding of `k`. -/
def kvGet {κ α : Type} [DecidableEq κ] (m : List (κ × α)) (k : κ) : Option α :=
  match m with
  | [] => none
  | (k', v) :: rest => if k' = k then some v else kvGet rest k

/-- Write to an association-list store (the new binding shadows old ones). -/
def kvSet {κ α : Type} [DecidableEq κ] (m : List (κ × α)) (k : κ) (v : α) :
    List (κ × α) :=
  (k, v) :: m

theorem kvGet_kvSet_eq {κ α : Type} [DecidableEq κ] (m : List (κ × α)) (k : κ) (v : α) :
    kvGet (kvSet m k v) k = some v := by
  simp [kvGet, kvSet]

theorem kvGet_kvSet_ne {κ α : Type} [DecidableEq κ] (m : List (κ × α)) (k k' : κ) (v : α)
    (h : k ≠ k') : kvGet (kvSet m k v) k' = kvGet m k' := by
  simp [kvGet, kvSet, h]

/-- The contract's stored state: instance keys as `Option` fields,
persistent keys as association lists. -/
structure ContractState where
  admin : Option Address
  fee_rate : Option Nat
  fee_treasury : Option Address
  dispute_resolver : Option Address
  is_paused : Option Bool
  order_count : Option Nat
  orders : List (Nat × Order)
  user_orders : List (Address × List Nat)
deriving DecidableEq, Repr

/-- External token balances: `(token, holder) ↦ balance`, absent = 0. -/
abbrev Balances := List ((Address × Address) × Int)

/-- Balance of `holder` in `token` (0 when no entry exists). -/
def balGet (bal : Balances) (token holder : Address) : Int :=
  (kvGet bal (token, holder)).getD 0

/-- The world a contract call acts on: contract storage, the external
token ledger, and the published events (`(order_id, principal, amount)`). -/
structure World where
  state : ContractState
  balances : Balances
  events : List (Nat × Address × Int)
deriving DecidableEq, Repr

/-- Per-call environment: the ledger timestamp, the contract's own
address, the set of principals whose `require_auth` succeeds on this
call, and whether the external transfer primitive succeeds. -/
structure CallCtx where
  timestamp : Nat
  contract_address : Address
  auths : List Address
  transfer_ok : Bool
deriving DecidableEq, Repr

/-- Modelled from the spec: the external Value Transfer Primitive (§6),
atomic all-or-nothing movement of `amount` of `token` from `src` to
`dst`, failing closed; whether it succeeds on this call is the oracle
bit `ok`.  Its code (the token contract) is not part of this repository. -/
def transfer (ok : Bool) (bal : Balances) (token src dst : Address) (amount : Int) :
    Except Error Balances :=
  if ok then
    let b1 := kvSet bal (token, src) (balGet bal token src - amount)
    Except.ok (kvSet b1 (token, dst) (balGet b1 token dst + amount))
  else
    Except.error Error.TransferFailed

/-- `EscrowContract::initialize` of `src/src/lib.rs` (named `initializeContract` here because `initialize` is a Lean keyword). -/
def initializeContract (st : ContractState) (admin : Address) (fee_rate : Nat)
    (fee_treasury dispute_resolver : Address) : ContractState × Option Error :=
  if st.admin.isSome then
    (st, some Error.AlreadyInitialized)
  else if fee_rate > 1000 then
    (st, some Error.InvalidFeeRate)
  else
    ({ st with
        admin := some admin
        fee_rate := some fee_rate
        fee_treasury := some fee_treasury
        dispute_resolver := some dispute_resolver
        is_paused := some false
        order_count := some 0 }, none)

/-- `EscrowContract::set_admin` of `src/src/lib.rs`. -/
def set_admin (c : CallCtx) (st : ContractState) (new_admin : Address) :
    ContractState × Option Error :=
  match st.admin with
  | none => (st, some Error.NotInitialized)
  | some admin =>
    if admin ∈ c.auths then
      ({ st with admin := some new_admin }, none)
    else
      (st, some Error.Unauthorized)

/-- `EscrowContract::set_fee_rate` of `src/src/lib.rs`. -/
def set_fee_rate (c : CallCtx) (st : ContractState) (new_fee_rate : Nat) :
    ContractState × Option Error :=
  match st.admin with
  | none => (st, some Error.NotInitialized)
  | some admin =>
    if admin ∈ c.auths then
      if new_fee_rate > 1000 then
        (st, some Error.InvalidFeeRate)
      else
        ({ st with fee_rate := some new_fee_rate }, none)
    else
      (st, some Error.Unauthorized)

/-- `EscrowContract::set_fee_treasury` of `src/src/lib.rs`. -/
def set_fee_treasury (c : CallCtx) (st : ContractState) (new_treasury : Address) :
    ContractState × Option Error :=
  match st.admin with
  | none => (st, some Error.NotInitialized)
  | some admin =>
    if admin ∈ c.auths then
      ({ st with fee_treasury := some new_treasury }, none)
    else
      (st, some Error.Unauthorized)

/-- `EscrowContract::set_dispute_resolver` of `src/src/lib.rs`. -/
def set_dispute_resolver (c : CallCtx) (st : ContractState) (new_resolver : Address) :
    ContractState × Option Error :=
  match st.admin with
  | none => (st, some Error.NotInitialized)
  | some admin =>
    if admin ∈ c.auths then
      ({ st with dispute_resolver := some new_resolver }, none)
    else
      (st, some Error.Unauthorized)

/-- `EscrowContract::pause` of `src/src/lib.rs`. -/
def pause (c : CallCtx) (st : ContractState) : ContractState × Option Error :=
  match st.admin with
  | none => (st, some Error.NotInitialized)
  | some admin =>
    if admin ∈ c.auths then
      ({ st with is_paused := some true }, none)
    else
      (st, some Error.Unauthorized)

/-- `EscrowContract::unpause` of `src/src/lib.rs`. -/
def unpause (c : CallCtx) (st : ContractState) : ContractState × Option Error :=
  match st.admin with
  | none => (st, some Error.NotInitialized)
  | some admin =>
    if admin ∈ c.auths then
      ({ st with is_paused := some false }, none)
    else
      (st, some Error.Unauthorized)

/-- `EscrowContract::is_paused` of `src/src/lib.rs` (absent flag reads
as `false` via `unwrap_or(false)`). -/
def is_paused (st : ContractState) : Bool :=
  st.is_paused.getD false

/-- `EscrowContract::get_admin` of `src/src/lib.rs`. -/
def get_admin (st : ContractState) : Except Error Address :=
  match st.admin with
  | none => Except.error Error.NotInitialized
  | some a => Except.ok a

/-- `EscrowContract::validate_order_acceptance` of `src/src/lib.rs`. -/
def validate_order_acceptance (c : CallCtx) (order : Order) (buyer : Address) :
    Except Error Unit :=
  if order.status ≠ OrderStatus.Open then
    Except.error Error.InvalidOrderStatus
  else if c.timestamp > order.expires_at then
    Except.error Error.OrderExpired
  else if buyer = order.seller then
    Except.error Error.CannotAcceptOwnOrder
  else
    Except.ok ()

/-- `EscrowContract::lock_escrow_funds` of `src/src/lib.rs`: drive the
transfer primitive to move `order.amount` of `order.token` from the
seller to the contract's own address. -/
def lock_escrow_funds (c : CallCtx) (bal : Balances) (order : Order) :
    Except Error Balances :=
  transfer c.transfer_ok bal order.token order.seller c.contract_address order.amount

/-- `EscrowContract::update_user_orders` of `src/src/lib.rs`: append
`order_id` to the user's order list (absent list reads as empty). -/
def update_user_orders (st : ContractState) (user : Address) (order_id : Nat) :
    ContractState :=
  let user_orders := (kvGet st.user_orders user).getD []
  { st with user_orders := kvSet st.user_orders user (user_orders ++ [order_id]) }

/-- `EscrowContract::accept_order` of `src/src/lib.rs`: `require_auth`
on the buyer, pause gate, order lookup, validation, fund lock, then the
state writes and the `order_accepted` event. -/
def accept_order (c : CallCtx) (w : World) (order_id : Nat) (buyer : Address) :
    World × Option Error :=
  if buyer ∉ c.auths then
    (w, some Error.Unauthorized)
  else if is_paused w.state then
    (w, some Error.ContractPaused)
  else
    match kvGet w.state.orders order_id with
    | none => (w, some Error.OrderNotFound)
    | some order =>
      match validate_order_acceptance c order buyer with
      | Except.error e => (w, some e)
      | Except.ok _ =>
        match lock_escrow_funds c w.balances order with
        | Except.error e => (w, some e)
        | Except.ok bal' =>
          let order' := { order with buyer := some buyer, status := OrderStatus.Locked }
          let st' := { w.state with orders := kvSet w.state.orders order_id order' }
          let st'' := update_user_orders st' buyer order_id
          ({ state := st''
             balances := bal'
             events := w.events ++ [(order_id, buyer, order.amount)] }, none)

/-- The external calls of the source fragment, as one operation type for
trace-level (reachability) claims. -/
inductive Op where
  | opInitialize (admin : Address) (fee_rate : Nat) (fee_treasury dispute_resolver : Address)
  | opSetAdmin (new_admin : Address)
  | opSetFeeRate (new_fee_rate : Nat)
  | opSetFeeTreasury (new_treasury : Address)
  | opSetDisputeResolver (new_resolver : Address)
  | opPause
  | opUnpause
  | opAcceptOrder (order_id : Nat) (buyer : Address)
deriving DecidableEq, Repr

/-- Lift a storage-only call's result to the world. -/
def liftSt (w : World) : ContractState × Option Error → World × Option Error
  | (st, e) => ({ w with state := st }, e)

/-- One external call applied to the world. -/
def step (c : CallCtx) (w : World) : Op → World × Option Error
  | Op.opInitialize a r t d => liftSt w (initializeContract w.state a r t d)
  | Op.opSetAdmin a => liftSt w (set_admin c w.state a)
  | Op.opSetFeeRate r => liftSt w (set_fee_rate c w.state r)
  | Op.opSetFeeTreasury t => liftSt w (set_fee_treasury c w.state t)
  | Op.opSetDisputeResolver d => liftSt w (set_dispute_resolver c w.state d)
  | Op.opPause => liftSt w (pause c w.state)
  | Op.opUnpause => liftSt w (unpause c w.state)
  | Op.opAcceptOrder i b => accept_order c w i b

/-- Run a trace of calls, each with its own call environment. -/
def runTrace (w : World) : List (CallCtx × Op) → World
  | [] => w
  | (c, o) :: tr => runTrace (step c w o).1 tr

/-- The trace contains no `unpause` call that succeeds (failed
`unpause` attempts, e.g. unauthorized ones, are allowed). -/
def noSuccessfulUnpause (w : World) : List (CallCtx × Op) → Prop
  | [] => True
  | (c, o) :: tr =>
      ¬(o = Op.opUnpause ∧ (step c w o).2 = none) ∧
        noSuccessfulUnpause (step c w o).1 tr

/-- The trace contains no `initialize` call that succeeds. -/
def noSuccessfulInit (w : World) : List (CallCtx × Op) → Prop
  | [] => True
  | (c, o) :: tr =>
      (step c w o).2 ≠ none ∧ noSuccessfulInit (step c w o).1 tr

/-- The world before any call: every storage key absent, no balances,
no events. -/
def genesis : World :=
  { state :=
      { admin := none
        fee_rate := none
        fee_treasury := none
        dispute_resolver := none
        is_paused := none
        order_count := none
        orders := []
        user_orders := [] }
    balances := []
    events := [] }

/-- Modelled from the spec: §4.2 fee computation for the settlement
functions (`release` / `resolve`) that are missing from the source
fragment: `fee = floor(amount * fee_rate / 10000)` (Lean's `Int`
division is floor division for a positive divisor). -/
def compute_fee (amount : Int) (fee_rate : Nat) : Int :=
  amount * (fee_rate : Int) / 10000

/-- Modelled from the spec: the dispute outcomes of §4.4. -/
inductive ResolveOutcome where
  | FavorBuyer
  | FavorSeller
deriving DecidableEq, Repr

/-- Modelled from the spec: the outgoing transfer legs of `release`
(missing from the source fragment) — payout `amount - fee` to the
buyer, `fee` to the treasury (§4.2). -/
def release_legs (buyer fee_treasury : Address) (amount : Int) (fee_rate : Nat) :
    List (Address × Int) :=
  [(buyer, amount - compute_fee amount fee_rate),
   (fee_treasury, compute_fee amount fee_rate)]

/-- Modelled from the spec: the outgoing transfer legs of `resolve`
(missing from the source fragment) — favor-buyer performs the same
split as `release`, favor-seller refunds the full amount with no fee
(§4.4). -/
def resolve_legs (outcome : ResolveOutcome) (seller buyer fee_treasury : Address)
    (amount : Int) (fee_rate : Nat) : List (Address × Int) :=
  match outcome with
  | ResolveOutcome.FavorBuyer => release_legs buyer fee_treasury amount fee_rate
  | ResolveOutcome.FavorSeller => [(seller, amount)]

/-- Total value paid out by a list of settlement legs. -/
def legsTotal (legs : List (Address × Int)) : Int :=
  (legs.map Prod.snd).sum

/-- Value paid by the legs to one principal. -/
def paidTo (legs : List (Address × Int)) (who : Address) : Int :=
  ((legs.filter (fun p => p.1 = who)).map Prod.snd).sum

/-! Concrete fixtures used by the witness and counterexample theorems. -/

/-- A concrete open order (seller 5, token 9, amount 1000, expires at 100). -/
def wOrder : Order :=
  { id := 1
    seller := 5
    buyer := none
    token := 9
    amount := 1000
    fiat_currency := "USD"
    fiat_amount := 100
    rate := 10
    status := OrderStatus.Open
    created_at := 0
    expires_at := 100
    payment_method := "Bank" }

/-- A concrete initialized, unpaused world holding `wOrder` under id 1. -/
def wWorld : World :=
  { state :=
      { admin := some 3
        fee_rate := some 50
        fee_treasury := some 7
        dispute_resolver := some 8
        is_paused := some false
        order_count := some 2
        orders := [(1, wOrder)]
        user_orders := [] }
    balances := [((9, 5), 5000)]
    events := [] }

/-- A concrete call environment: time 50, contract address 100, buyer 2,
admin 3 and seller 5 all authorized, transfer primitive succeeding. -/
def wCtx : CallCtx :=
  { timestamp := 50
    contract_address := 100
    auths := [2, 3, 5]
    transfer_ok := true }

/-- C1: on an Open, unexpired, stored order, with `buyer ≠ seller`, the
contract not paused, the buyer authorized and the transfer primitive
succeeding, `accept_order` succeeds, records the buyer, sets the status
to Locked, moves `order.amount` of `order.token` from the seller to the
contract address, and appends the order id to the buyer's user-order
index. -/
theorem C1_accept_order_success (c : CallCtx) (w : World) (oid : Nat) (b : Address)
    (order : Order)
    (horder : kvGet w.state.orders oid = some order)
    (hopen : order.status = OrderStatus.Open)
    (htime : c.timestamp ≤ order.expires_at)
    (hneq : b ≠ order.seller)
    (hpause : is_paused w.state = false)
    (hauth : b ∈ c.auths)
    (hok : c.transfer_ok = true)
    (hsc : order.seller ≠ c.contract_address) :
    (accept_order c w oid b).2 = none ∧
    kvGet (accept_order c w oid b).1.state.orders oid =
      some { order with buyer := some b, status := OrderStatus.Locked } ∧
    balGet (accept_order c w oid b).1.balances order.token order.seller =
      balGet w.balances order.token order.seller - order.amount ∧
    balGet (accept_order c w oid b).1.balances order.token c.contract_address =
      balGet w.balances order.token c.contract_address + order.amount ∧
    (kvGet (accept_order c w oid b).1.state.user_orders b).getD [] =
      (kvGet w.state.user_orders b).getD [] ++ [oid] := by
  have hnotlt : ¬ c.timestamp > order.expires_at := Nat.not_lt.mpr htime
  simp only [accept_order, hauth, not_true_eq_false, if_false, hpause, Bool.false_eq_true,
    horder, validate_order_acceptance, hopen, ne_eq, not_true_eq_false, if_true,
    lock_escrow_funds, transfer, hok, hnotlt, hneq, update_user_orders,
    reduceCtorEq, not_false_eq_true, ite_false, ite_true]
  refine ⟨trivial, kvGet_kvSet_eq _ _ _, ?_, ?_, ?_⟩
  · simp only [balGet]
    rw [kvGet_kvSet_ne _ _ _ _ (fun h => hsc (congrArg Prod.snd h).symm),
      kvGet_kvSet_eq, Option.getD_some]
  · simp only [balGet]
    rw [kvGet_kvSet_eq, Option.getD_some,
      kvGet_kvSet_ne _ _ _ _ (fun h => hsc (congrArg Prod.snd h))]
  · rw [kvGet_kvSet_eq, Option.getD_some]

/-- C1 witness: the concrete fixture call succeeds with all the stated
effects. -/
theorem C1_accept_order_success_witness :
    (accept_order wCtx wWorld 1 2).2 = none ∧
    kvGet (accept_order wCtx wWorld 1 2).1.state.orders 1 =
      some { wOrder with buyer := some 2, status := OrderStatus.Locked } ∧
    balGet (accept_order wCtx wWorld 1 2).1.balances wOrder.token wOrder.seller =
      balGet wWorld.balances wOrder.token wOrder.seller - wOrder.amount ∧
    balGet (accept_order wCtx wWorld 1 2).1.balances wOrder.token wCtx.contract_address =
      balGet wWorld.balances wOrder.token wCtx.contract_address + wOrder.amount ∧
    (kvGet (accept_order wCtx wWorld 1 2).1.state.user_orders 2).getD [] =
      (kvGet wWorld.state.user_orders 2).getD [] ++ [1] :=
  C1_accept_order_success wCtx wWorld 1 2 wOrder (by decide) (by decide) (by decide)
    (by decide) (by decide) (by decide) (by decide) (by decide)

/-- C2: when the transfer of `order.amount` into custody fails during
`accept_order` (every earlier guard passing, so the transfer is what
aborts the call), the call returns `TransferFailed` and the returned
world is exactly the pre-call world: the order's status stays Open, no
buyer is recorded, and the buyer's user-order index is untouched. -/
theorem C2_accept_order_transfer_failure (c : CallCtx) (w : World) (oid : Nat) (b : Address)
    (order : Order)
    (horder : kvGet w.state.orders oid = some order)
    (hopen : order.status = OrderStatus.Open)
    (htime : c.timestamp ≤ order.expires_at)
    (hneq : b ≠ order.seller)
    (hpause : is_paused w.state = false)
    (hauth : b ∈ c.auths)
    (hfail : c.transfer_ok = false) :
    accept_order c w oid b = (w, some Error.TransferFailed) := by
  have hnotlt : ¬ c.timestamp > order.expires_at := Nat.not_lt.mpr htime
  simp only [accept_order, hauth, not_true_eq_false, if_false, hpause, Bool.false_eq_true,
    horder, validate_order_acceptance, hopen, ne_eq, lock_escrow_funds, transfer, hfail,
    hnotlt, hneq, reduceCtorEq, not_false_eq_true, ite_false, ite_true]

/-- C2 witness: the concrete fixture call with a failing transfer
primitive aborts with `TransferFailed` and an unchanged world. -/
theorem C2_accept_order_transfer_failure_witness :
    accept_order { wCtx with transfer_ok := false } wWorld 1 2 =
      (wWorld, some Error.TransferFailed) :=
  C2_accept_order_transfer_failure { wCtx with transfer_ok := false } wWorld 1 2 wOrder
    (by decide) (by decide) (by decide) (by decide) (by decide) (by decide) (by decide)

/-- Helper: a successful `validate_order_acceptance` means the order is
Open, unexpired, and the buyer is not the seller. -/
theorem validate_ok_iff (c : CallCtx) (order : Order) (b : Address) :
    validate_order_acceptance c order b = Except.ok () ↔
      order.status = OrderStatus.Open ∧ c.timestamp ≤ order.expires_at ∧
        b ≠ order.seller := by
  unfold validate_order_acceptance
  split_ifs with h1 h2 h3 <;>
    simp_all [Nat.not_lt, not_not]

/-- Helper: validation never reports `ContractPaused`. -/
theorem validate_ne_paused (c : CallCtx) (order : Order) (b : Address) :
    validate_order_acceptance c order b ≠ Except.error Error.ContractPaused := by
  unfold validate_order_acceptance
  split_ifs <;> simp

/-- Helper: with the pause flag stored `true`, an authenticated
`accept_order` call is rejected with `ContractPaused` and the world is
unchanged. -/
theorem accept_order_paused (c : CallCtx) (w : World) (oid : Nat) (b : Address)
    (hflag : w.state.is_paused = some true) (hauth : b ∈ c.auths) :
    accept_order c w oid b = (w, some Error.ContractPaused) := by
  simp [accept_order, is_paused, hflag, hauth]

/-- Helper: with the pause gate reading `false`, `accept_order` never
reports `ContractPaused`. -/
theorem accept_order_unpaused_ne (c : CallCtx) (w : World) (oid : Nat) (b : Address)
    (hflag : is_paused w.state = false) :
    (accept_order c w oid b).2 ≠ some Error.ContractPaused := by
  simp only [accept_order, hflag, Bool.false_eq_true, if_false, ite_false]
  split_ifs with h1
  case neg => simp
  · cases horder : kvGet w.state.orders oid with
    | none => simp
    | some order =>
      simp only
      cases hval : validate_order_acceptance c order b with
      | error e =>
        simp only
        intro hcontra
        apply validate_ne_paused c order b
        rw [hval]
        have he : e = Error.ContractPaused := by
          simpa using hcontra
        rw [he]
      | ok u =>
        simp only
        cases hlock : lock_escrow_funds c w.balances order with
        | error e =>
          simp only
          unfold lock_escrow_funds transfer at hlock
          split_ifs at hlock
          cases hlock
          simp
        | ok bal' => simp

/-- Helper: a paused state with an existing admin stays paused (with an
admin) under every call that is not a successful `unpause`. -/
theorem paused_invariant_step (c : CallCtx) (w : World) (o : Op)
    (hflag : w.state.is_paused = some true) (hadmin : w.state.admin.isSome)
    (hno : ¬(o = Op.opUnpause ∧ (step c w o).2 = none)) :
    (step c w o).1.state.is_paused = some true ∧
      (step c w o).1.state.admin.isSome := by
  obtain ⟨a, ha⟩ := Option.isSome_iff_exists.mp hadmin
  cases o with
  | opInitialize a' r' t' d' =>
    simp [step, liftSt, initializeContract, ha, hflag]
  | opSetAdmin a' =>
    simp only [step, liftSt, set_admin, ha]
    split_ifs <;> simp [hflag, hadmin]
  | opSetFeeRate r' =>
    simp only [step, liftSt, set_fee_rate, ha]
    split_ifs <;> simp [hflag, ha, hadmin]
  | opSetFeeTreasury t' =>
    simp only [step, liftSt, set_fee_treasury, ha]
    split_ifs <;> simp [hflag, ha, hadmin]
  | opSetDisputeResolver d' =>
    simp only [step, liftSt, set_dispute_resolver, ha]
    split_ifs <;> simp [hflag, ha, hadmin]
  | opPause =>
    simp only [step, liftSt, pause, ha]
    split_ifs <;> simp [hflag, ha, hadmin]
  | opUnpause =>
    by_cases hau : a ∈ c.auths
    · exact absurd ⟨rfl, by simp [step, liftSt, unpause, ha, hau]⟩ hno
    · simp [step, liftSt, unpause, ha, hau, hflag, hadmin]
  | opAcceptOrder oid b =>
    simp only [step, accept_order, is_paused, hflag, Option.getD_some, if_true]
    split_ifs <;> simp [hflag, ha, hadmin]

/-- Helper: the paused-with-admin invariant holds along any trace with
no successful `unpause`. -/
theorem paused_invariant_trace (tr : List (CallCtx × Op)) :
    ∀ w : World, w.state.is_paused = some true → w.state.admin.isSome →
      noSuccessfulUnpause w tr →
      (runTrace w tr).state.is_paused = some true ∧
        (runTrace w tr).state.admin.isSome := by
  induction tr with
  | nil => exact fun w hf ha _ => ⟨hf, ha⟩
  | cons p rest ih =>
    rintro w hf ha ⟨hno, hrest⟩
    obtain ⟨hf', ha'⟩ := paused_invariant_step p.1 w p.2 hf ha hno
    exact ih _ hf' ha' hrest

/-- Helper: a successful `pause` call leaves the flag stored `true` and
the admin present. -/
theorem pause_success_state (c : CallCtx) (st : ContractState)
    (h : (pause c st).2 = none) :
    (pause c st).1.is_paused = some true ∧ (pause c st).1.admin.isSome := by
  unfold pause at h ⊢
  cases ha : st.admin with
  | none => simp_all
  | some a => by_cases hau : a ∈ c.auths <;> simp_all

/-- Helper: a successful `unpause` call leaves the flag stored `false`. -/
theorem unpause_success_state (c : CallCtx) (st : ContractState)
    (h : (unpause c st).2 = none) :
    (unpause c st).1.is_paused = some false := by
  unfold unpause at h ⊢
  cases ha : st.admin with
  | none => simp_all
  | some a => by_cases hau : a ∈ c.auths <;> simp_all

/-- C3: after a successful `pause` and along any subsequent trace with
no successful `unpause`, every authenticated `accept_order` call fails
with `ContractPaused` leaving the world unchanged, `is_paused` reads
`true`, `get_admin` returns without error; and after a successful
`unpause` from that state, `accept_order` is no longer rejected on the
pause check. -/
theorem C3_pause_gating (c0 : CallCtx) (w0 : World) (tr : List (CallCtx × Op))
    (hpause : (step c0 w0 Op.opPause).2 = none)
    (hnup : noSuccessfulUnpause (step c0 w0 Op.opPause).1 tr) :
    (∀ c oid b, b ∈ c.auths →
        accept_order c (runTrace (step c0 w0 Op.opPause).1 tr) oid b =
          (runTrace (step c0 w0 Op.opPause).1 tr, some Error.ContractPaused)) ∧
    is_paused (runTrace (step c0 w0 Op.opPause).1 tr).state = true ∧
    (∃ a, get_admin (runTrace (step c0 w0 Op.opPause).1 tr).state = Except.ok a) ∧
    (∀ c w', step c (runTrace (step c0 w0 Op.opPause).1 tr) Op.opUnpause = (w', none) →
        ∀ c2 oid b, (accept_order c2 w' oid b).2 ≠ some Error.ContractPaused) := by
  have hstep : (step c0 w0 Op.opPause).1.state.is_paused = some true ∧
      (step c0 w0 Op.opPause).1.state.admin.isSome := by
    have h2 : (pause c0 w0.state).2 = none := by
      simpa [step, liftSt] using hpause
    have := pause_success_state c0 w0.state h2
    simpa [step, liftSt] using this
  obtain ⟨hf, ha⟩ := paused_invariant_trace tr _ hstep.1 hstep.2 hnup
  refine ⟨fun c oid b hb => accept_order_paused c _ oid b hf hb, ?_, ?_, ?_⟩
  · simp [is_paused, hf]
  · obtain ⟨a, ha'⟩ := Option.isSome_iff_exists.mp ha
    exact ⟨a, by simp [get_admin, ha']⟩
  · intro c w' hup c2 oid b
    have h2 : (unpause c (runTrace (step c0 w0 Op.opPause).1 tr).state).2 = none := by
      have := congrArg Prod.snd hup
      simpa [step, liftSt] using this
    have hw' : w'.state = (unpause c (runTrace (step c0 w0 Op.opPause).1 tr).state).1 := by
      have := congrArg Prod.fst hup
      simp only [step, liftSt] at this
      exact (congrArg World.state this).symm
    have hflag' : w'.state.is_paused = some false := by
      rw [hw']
      exact unpause_success_state _ _ h2
    exact accept_order_unpaused_ne c2 w' oid b (by simp [is_paused, hflag'])

/-- C3 witness: pausing the concrete fixture world gates a concrete
authenticated accept, and a concrete unpause lifts the gate. -/
theorem C3_pause_gating_witness :
    (∀ c oid b, b ∈ c.auths →
        accept_order c (runTrace (step wCtx wWorld Op.opPause).1 []) oid b =
          (runTrace (step wCtx wWorld Op.opPause).1 [], some Error.ContractPaused)) ∧
    is_paused (runTrace (step wCtx wWorld Op.opPause).1 []).state = true ∧
    (∃ a, get_admin (runTrace (step wCtx wWorld Op.opPause).1 []).state = Except.ok a) ∧
    (∀ c w', step c (runTrace (step wCtx wWorld Op.opPause).1 []) Op.opUnpause = (w', none) →
        ∀ c2 oid b, (accept_order c2 w' oid b).2 ≠ some Error.ContractPaused) :=
  C3_pause_gating wCtx wWorld [] (by decide) (by simp [noSuccessfulUnpause])

/-- Helper: `accept_order` never touches the instance storage keys
(admin, fee rate, treasury, resolver, pause flag, order count). -/
theorem accept_order_instance_fields (c : CallCtx) (w : World) (oid : Nat) (b : Address) :
    (accept_order c w oid b).1.state.admin = w.state.admin ∧
    (accept_order c w oid b).1.state.fee_rate = w.state.fee_rate ∧
    (accept_order c w oid b).1.state.fee_treasury = w.state.fee_treasury ∧
    (accept_order c w oid b).1.state.dispute_resolver = w.state.dispute_resolver ∧
    (accept_order c w oid b).1.state.is_paused = w.state.is_paused ∧
    (accept_order c w oid b).1.state.order_count = w.state.order_count := by
  unfold accept_order update_user_orders
  repeat' split
  all_goals simp

/-- Helper: the fee-rate bound (≤ 1000) is preserved by every call. -/
theorem fee_rate_bound_step (c : CallCtx) (w : World) (o : Op)
    (h : ∀ r, w.state.fee_rate = some r → r ≤ 1000) :
    ∀ r, (step c w o).1.state.fee_rate = some r → r ≤ 1000 := by
  cases o with
  | opInitialize a' r' t' d' =>
    intro r hr
    simp only [step, liftSt, initializeContract] at hr
    split_ifs at hr with h1 h2
    · exact h r hr
    · exact h r hr
    · simp only [Option.some.injEq] at hr
      omega
  | opSetAdmin a' =>
    intro r hr
    simp only [step, liftSt, set_admin] at hr
    cases ha : w.state.admin with
    | none => simp_all
    | some a => simp only [ha] at hr; split_ifs at hr <;> exact h r hr
  | opSetFeeRate r' =>
    intro r hr
    simp only [step, liftSt, set_fee_rate] at hr
    cases ha : w.state.admin with
    | none => simp_all
    | some a =>
      simp only [ha] at hr
      split_ifs at hr with h1 h2
      · exact h r hr
      · simp only [Option.some.injEq] at hr
        omega
      · exact h r hr
  | opSetFeeTreasury t' =>
    intro r hr
    simp only [step, liftSt, set_fee_treasury] at hr
    cases ha : w.state.admin with
    | none => simp_all
    | some a => simp only [ha] at hr; split_ifs at hr <;> exact h r hr
  | opSetDisputeResolver d' =>
    intro r hr
    simp only [step, liftSt, set_dispute_resolver] at hr
    cases ha : w.state.admin with
    | none => simp_all
    | some a => simp only [ha] at hr; split_ifs at hr <;> exact h r hr
  | opPause =>
    intro r hr
    simp only [step, liftSt, pause] at hr
    cases ha : w.state.admin with
    | none => simp_all
    | some a => simp only [ha] at hr; split_ifs at hr <;> exact h r hr
  | opUnpause =>
    intro r hr
    simp only [step, liftSt, unpause] at hr
    cases ha : w.state.admin with
    | none => simp_all
    | some a => simp only [ha] at hr; split_ifs at hr <;> exact h r hr
  | opAcceptOrder oid b =>
    intro r hr
    rw [step, (accept_order_instance_fields c w oid b).2.1] at hr
    exact h r hr

/-- C4: starting from the uninitialized world, the stored fee rate
never exceeds 1000 basis points after any sequence of calls; a fee
rate above 1000 is rejected with `InvalidFeeRate` (storing nothing /
leaving the stored rate unchanged) both at `initialize` and at
`set_fee_rate`, and both accept any value ≤ 1000. -/
theorem C4_fee_rate_bound (tr : List (CallCtx × Op)) :
    (∀ r, (runTrace genesis tr).state.fee_rate = some r → r ≤ 1000) ∧
    (∀ st a r t d, 1000 < r →
        initializeContract st a r t d = (st, some Error.InvalidFeeRate) ∨
          initializeContract st a r t d = (st, some Error.AlreadyInitialized)) ∧
    (∀ st a r t d, st.admin = none → 1000 < r →
        initializeContract st a r t d = (st, some Error.InvalidFeeRate)) ∧
    (∀ c st a r, st.admin = some a → a ∈ c.auths → 1000 < r →
        set_fee_rate c st r = (st, some Error.InvalidFeeRate)) ∧
    (∀ st a r t d, st.admin = none → r ≤ 1000 →
        (initializeContract st a r t d).2 = none ∧
          (initializeContract st a r t d).1.fee_rate = some r) ∧
    (∀ c st a r, st.admin = some a → a ∈ c.auths → r ≤ 1000 →
        (set_fee_rate c st r).2 = none ∧ (set_fee_rate c st r).1.fee_rate = some r) := by
  refine ⟨?_, ?_, ?_, ?_, ?_, ?_⟩
  · have main : ∀ (t : List (CallCtx × Op)) (w : World),
        (∀ r, w.state.fee_rate = some r → r ≤ 1000) →
        ∀ r, (runTrace w t).state.fee_rate = some r → r ≤ 1000 := by
      intro t
      induction t with
      | nil => exact fun w h => h
      | cons p rest ih =>
        intro w h
        exact ih _ (fee_rate_bound_step p.1 w p.2 h)
    exact main tr genesis (by simp [genesis])
  · intro st a r t d hr
    unfold initializeContract
    split_ifs with h1
    · right; rfl
    · left; rfl
  · intro st a r t d hnone hr
    unfold initializeContract
    split_ifs with h1
    · exact absurd h1 (by simp [hnone])
    · rfl
  · intro c st a r ha hau hr
    unfold set_fee_rate
    rw [ha]
    simp only [hau, if_true]
    split_ifs with h1
    · rfl
    · omega
  · intro st a r t d hnone hr
    unfold initializeContract
    split_ifs with h1 h2
    · exact absurd h1 (by simp [hnone])
    · omega
    · constructor <;> rfl
  · intro c st a r ha hau hr
    unfold set_fee_rate
    rw [ha]
    simp only [hau, if_true]
    split_ifs with h1
    · omega
    · constructor <;> rfl

/-- Helper: governance calls never touch the order store. -/
theorem step_orders_governance (c : CallCtx) (w : World) (o : Op)
    (h : ∀ oid b, o ≠ Op.opAcceptOrder oid b) :
    (step c w o).1.state.orders = w.state.orders := by
  cases o with
  | opAcceptOrder oid b => exact absurd rfl (h oid b)
  | opInitialize a r t d =>
    simp only [step, liftSt, initializeContract]
    repeat' split
    all_goals rfl
  | opSetAdmin a =>
    simp only [step, liftSt, set_admin]
    repeat' split
    all_goals rfl
  | opSetFeeRate r =>
    simp only [step, liftSt, set_fee_rate]
    repeat' split
    all_goals rfl
  | opSetFeeTreasury t =>
    simp only [step, liftSt, set_fee_treasury]
    repeat' split
    all_goals rfl
  | opSetDisputeResolver d =>
    simp only [step, liftSt, set_dispute_resolver]
    repeat' split
    all_goals rfl
  | opPause =>
    simp only [step, liftSt, pause]
    repeat' split
    all_goals rfl
  | opUnpause =>
    simp only [step, liftSt, unpause]
    repeat' split
    all_goals rfl

/-- Helper: after `accept_order`, a stored order is either untouched or
was Open and is now exactly the Locked order with the buyer recorded. -/
theorem accept_order_orders_cases (c : CallCtx) (w : World) (oid : Nat) (b : Address)
    (oid' : Nat) (ord ord' : Order)
    (h1 : kvGet w.state.orders oid' = some ord)
    (h2 : kvGet (accept_order c w oid b).1.state.orders oid' = some ord') :
    ord' = ord ∨
      (ord.status = OrderStatus.Open ∧
        ord' = { ord with buyer := some b, status := OrderStatus.Locked }) := by
  unfold accept_order at h2
  split_ifs at h2 with hb hp
  all_goals try (left; rw [h1] at h2; exact (Option.some.injEq _ _ ▸ h2).symm)
  · cases horder : kvGet w.state.orders oid with
    | none =>
      rw [horder] at h2
      simp only at h2
      left; rw [h1] at h2; exact (Option.some.injEq _ _ ▸ h2).symm
    | some order =>
      rw [horder] at h2
      simp only at h2
      cases hval : validate_order_acceptance c order b with
      | error e =>
        rw [hval] at h2
        simp only at h2
        left; rw [h1] at h2; exact (Option.some.injEq _ _ ▸ h2).symm
      | ok u =>
        rw [hval] at h2
        simp only at h2
        obtain ⟨hopen, -, -⟩ := (validate_ok_iff c order b).mp (by cases u; exact hval)
        cases hlock : lock_escrow_funds c w.balances order with
        | error e =>
          rw [hlock] at h2
          simp only at h2
          left; rw [h1] at h2; exact (Option.some.injEq _ _ ▸ h2).symm
        | ok bal' =>
          rw [hlock] at h2
          simp only [update_user_orders] at h2
          by_cases heq : oid = oid'
          · subst heq
            rw [kvGet_kvSet_eq] at h2
            rw [horder] at h1
            have hord : ord = order := (Option.some.injEq _ _ ▸ h1).symm
            right
            subst hord
            exact ⟨hopen, (Option.some.injEq _ _ ▸ h2).symm⟩
          · rw [kvGet_kvSet_ne _ _ _ _ heq] at h2
            left; rw [h1] at h2; exact (Option.some.injEq _ _ ▸ h2).symm

/-- C5: order status only ever moves along the code's single transition
edge (Open → Locked via `accept_order`); in particular an authenticated
`accept_order` on a stored non-Open order, with the contract not
paused, returns `InvalidOrderStatus` and leaves the whole world (order
store, user-order indexes, balances) unchanged. -/
theorem C5_status_machine (c : CallCtx) (w : World) (o : Op) :
    (∀ oid ord ord', kvGet w.state.orders oid = some ord →
        kvGet (step c w o).1.state.orders oid = some ord' →
        ord'.status = ord.status ∨
          (ord.status = OrderStatus.Open ∧ ord'.status = OrderStatus.Locked)) ∧
    (∀ oid ord b, kvGet w.state.orders oid = some ord →
        ord.status ≠ OrderStatus.Open → is_paused w.state = false → b ∈ c.auths →
        accept_order c w oid b = (w, some Error.InvalidOrderStatus)) := by
  constructor
  · intro oid ord ord' h1 h2
    by_cases hacc : ∀ oid0 b0, o ≠ Op.opAcceptOrder oid0 b0
    · rw [step_orders_governance c w o hacc] at h2
      rw [h1] at h2
      left
      rw [(Option.some.injEq _ _ ▸ h2 : ord = ord')]
    · push_neg at hacc
      obtain ⟨oid0, b0, rfl⟩ := hacc
      rcases accept_order_orders_cases c w oid0 b0 oid ord ord' h1
          (by simpa [step] using h2) with heq | ⟨hopen, heq⟩
      · left; rw [heq]
      · right; exact ⟨hopen, by rw [heq]⟩
  · intro oid ord b h1 hstat hp hb
    simp [accept_order, hp, hb, h1, validate_order_acceptance, hstat]

/-- Helper: from the uninitialized genesis world, a failing call
changes nothing. -/
theorem step_genesis (c : CallCtx) (o : Op) (h : (step c genesis o).2 ≠ none) :
    (step c genesis o).1 = genesis := by
  cases o with
  | opInitialize a r t d =>
    by_cases hr : r > 1000
    · simp [step, liftSt, initializeContract, genesis, hr]
    · exact absurd (by simp [step, liftSt, initializeContract, genesis, hr]) h
  | opSetAdmin a => simp [step, liftSt, set_admin, genesis]
  | opSetFeeRate r => simp [step, liftSt, set_fee_rate, genesis]
  | opSetFeeTreasury t => simp [step, liftSt, set_fee_treasury, genesis]
  | opSetDisputeResolver d => simp [step, liftSt, set_dispute_resolver, genesis]
  | opPause => simp [step, liftSt, pause, genesis]
  | opUnpause => simp [step, liftSt, unpause, genesis]
  | opAcceptOrder oid b =>
    simp only [step, accept_order]
    split_ifs <;> simp_all [genesis, is_paused, kvGet]

/-- Helper: with no successful `initialize`, every trace from genesis
stays at genesis. -/
theorem genesis_stuck (tr : List (CallCtx × Op)) (h : noSuccessfulInit genesis tr) :
    runTrace genesis tr = genesis := by
  induction tr with
  | nil => rfl
  | cons p rest ih =>
    obtain ⟨h1, h2⟩ := h
    have hst := step_genesis p.1 p.2 h1
    rw [runTrace, hst]
    exact ih (hst ▸ h2)

/-- C6 counterexample: on the uninitialized world, `accept_order` does
not fail with `NotInitialized` — it fails with `OrderNotFound` (the
function never checks the Admin key). -/
theorem C6_counterexample :
    genesis.state.admin = none ∧
    accept_order wCtx genesis 1 2 = (genesis, some Error.OrderNotFound) ∧
    Error.OrderNotFound ≠ Error.NotInitialized := by
  exact ⟨rfl, by decide, by decide⟩

/-- C6 (amended): with `initialize` never succeeded, `set_admin`,
`set_fee_rate`, `set_fee_treasury`, `set_dispute_resolver`, `pause`
and `unpause` all fail with `NotInitialized`; `accept_order` has no
initialization check and instead fails with `OrderNotFound` (no order
can be stored in a state reachable without a successful initialize). -/
theorem C6_not_initialized (c : CallCtx) (st : ContractState)
    (hadmin : st.admin = none)
    (tr : List (CallCtx × Op)) (hni : noSuccessfulInit genesis tr) :
    (∀ a, set_admin c st a = (st, some Error.NotInitialized)) ∧
    (∀ r, set_fee_rate c st r = (st, some Error.NotInitialized)) ∧
    (∀ t, set_fee_treasury c st t = (st, some Error.NotInitialized)) ∧
    (∀ d, set_dispute_resolver c st d = (st, some Error.NotInitialized)) ∧
    pause c st = (st, some Error.NotInitialized) ∧
    unpause c st = (st, some Error.NotInitialized) ∧
    (∀ c2 oid b, b ∈ c2.auths →
        accept_order c2 (runTrace genesis tr) oid b =
          (runTrace genesis tr, some Error.OrderNotFound)) := by
  have hg := genesis_stuck tr hni
  refine ⟨fun a => by simp [set_admin, hadmin],
    fun r => by simp [set_fee_rate, hadmin],
    fun t => by simp [set_fee_treasury, hadmin],
    fun d => by simp [set_dispute_resolver, hadmin],
    by simp [pause, hadmin],
    by simp [unpause, hadmin], ?_⟩
  intro c2 oid b hb
  rw [hg]
  simp [accept_order, genesis, is_paused, kvGet, hb]

/-- C6 witness: the concrete instantiation at genesis with the empty
trace. -/
theorem C6_not_initialized_witness :
    (∀ a, set_admin wCtx genesis.state a = (genesis.state, some Error.NotInitialized)) ∧
    (∀ r, set_fee_rate wCtx genesis.state r = (genesis.state, some Error.NotInitialized)) ∧
    (∀ t, set_fee_treasury wCtx genesis.state t = (genesis.state, some Error.NotInitialized)) ∧
    (∀ d, set_dispute_resolver wCtx genesis.state d = (genesis.state, some Error.NotInitialized)) ∧
    pause wCtx genesis.state = (genesis.state, some Error.NotInitialized) ∧
    unpause wCtx genesis.state = (genesis.state, some Error.NotInitialized) ∧
    (∀ c2 oid b, b ∈ c2.auths →
        accept_order c2 (runTrace genesis []) oid b =
          (runTrace genesis [], some Error.OrderNotFound)) :=
  C6_not_initialized wCtx genesis.state rfl [] trivial

/-- The fixture order with status Locked instead of Open. -/
def lockedOrder : Order :=
  { wOrder with status := OrderStatus.Locked }

/-- The fixture world holding the Locked order under id 1. -/
def lockedWorld : World :=
  { wWorld with state := { wWorld.state with orders := [(1, lockedOrder)] } }

/-- C7 counterexample: a stored Locked order whose seller (address 5,
authenticated) calls `accept_order` on it is rejected with
`InvalidOrderStatus`, not `CannotAcceptOwnOrder` — the status check
runs before the own-order check. -/
theorem C7_counterexample :
    kvGet lockedWorld.state.orders 1 = some lockedOrder ∧
    lockedOrder.seller = 5 ∧ (5 : Address) ∈ wCtx.auths ∧
    accept_order wCtx lockedWorld 1 5 = (lockedWorld, some Error.InvalidOrderStatus) ∧
    Error.InvalidOrderStatus ≠ Error.CannotAcceptOwnOrder := by
  refine ⟨by decide, by decide, by decide, by decide, by decide⟩

/-- Helper: a seller's `accept_order` on their own stored order always
returns the unchanged world together with the first failing guard's
error, in the source's guard order (auth, pause, status, expiry, own
order). -/
theorem accept_order_self_eq (c : CallCtx) (w : World) (oid : Nat) (order : Order)
    (horder : kvGet w.state.orders oid = some order) :
    accept_order c w oid order.seller =
      (w, some (if order.seller ∉ c.auths then Error.Unauthorized
        else if is_paused w.state then Error.ContractPaused
        else if order.status ≠ OrderStatus.Open then Error.InvalidOrderStatus
        else if c.timestamp > order.expires_at then Error.OrderExpired
        else Error.CannotAcceptOwnOrder)) := by
  simp only [accept_order, horder, validate_order_acceptance]
  split_ifs <;> simp_all

/-- C7 (amended): a seller's `accept_order` on their own stored order
never succeeds and never mutates the world; it fails with
`CannotAcceptOwnOrder` exactly when the order is Open, unexpired, the
contract not paused and the seller authenticated; otherwise the
reported error is one of the earlier guards' errors (`Unauthorized`,
`ContractPaused`, `InvalidOrderStatus`, `OrderExpired`), never
`CannotAcceptOwnOrder`. -/
theorem C7_seller_cannot_accept (c : CallCtx) (w : World) (oid : Nat) (order : Order)
    (horder : kvGet w.state.orders oid = some order) :
    ((accept_order c w oid order.seller).1 = w ∧
      (accept_order c w oid order.seller).2 ≠ none) ∧
    (order.seller ∈ c.auths → order.status = OrderStatus.Open →
      c.timestamp ≤ order.expires_at → is_paused w.state = false →
      accept_order c w oid order.seller = (w, some Error.CannotAcceptOwnOrder)) ∧
    ((accept_order c w oid order.seller).2 = some Error.CannotAcceptOwnOrder →
      order.seller ∈ c.auths ∧ order.status = OrderStatus.Open ∧
        c.timestamp ≤ order.expires_at ∧ is_paused w.state = false) ∧
    (∀ e, (accept_order c w oid order.seller).2 = some e →
      e = Error.Unauthorized ∨ e = Error.ContractPaused ∨
        e = Error.InvalidOrderStatus ∨ e = Error.OrderExpired ∨
        e = Error.CannotAcceptOwnOrder) := by
  have hchar := accept_order_self_eq c w oid order horder
  refine ⟨⟨by rw [hchar], by rw [hchar]; simp⟩, ?_, ?_, ?_⟩
  · intro hb hopen htime hp
    rw [hchar, if_neg (by simp [hb]), if_neg (by simp [hp]),
      if_neg (by simp [hopen]), if_neg (Nat.not_lt.mpr htime)]
  · rw [hchar]
    simp only [Option.some.injEq]
    intro he
    split_ifs at he with h1 h2 h3 h4
    all_goals first
      | exact Error.noConfusion he
      | exact ⟨by simpa using h1, by simpa [not_not] using h3,
          by simpa [Nat.not_lt] using h4, by simpa using h2⟩
  · intro e
    rw [hchar]
    simp only [Option.some.injEq]
    intro he
    split_ifs at he <;> subst he <;> tauto

/-- C7 witness: the concrete Open-order fixture, accepted by its own
seller, is rejected with `CannotAcceptOwnOrder` and unchanged world,
the error occurs exactly under the stated guards, and every error the
call can report is one of the five guard errors. -/
theorem C7_seller_cannot_accept_witness :
    ((accept_order wCtx wWorld 1 wOrder.seller).1 = wWorld ∧
      (accept_order wCtx wWorld 1 wOrder.seller).2 ≠ none) ∧
    (wOrder.seller ∈ wCtx.auths → wOrder.status = OrderStatus.Open →
      wCtx.timestamp ≤ wOrder.expires_at → is_paused wWorld.state = false →
      accept_order wCtx wWorld 1 wOrder.seller =
        (wWorld, some Error.CannotAcceptOwnOrder)) ∧
    ((accept_order wCtx wWorld 1 wOrder.seller).2 = some Error.CannotAcceptOwnOrder →
      wOrder.seller ∈ wCtx.auths ∧ wOrder.status = OrderStatus.Open ∧
        wCtx.timestamp ≤ wOrder.expires_at ∧ is_paused wWorld.state = false) ∧
    (∀ e, (accept_order wCtx wWorld 1 wOrder.seller).2 = some e →
      e = Error.Unauthorized ∨ e = Error.ContractPaused ∨
        e = Error.InvalidOrderStatus ∨ e = Error.OrderExpired ∨
        e = Error.CannotAcceptOwnOrder) :=
  C7_seller_cannot_accept wCtx wWorld 1 wOrder (by decide)

/-- C8: a successful `initialize` stores an admin; every later call
keeps an admin stored; and on any state with an admin stored, a second
`initialize` (whatever its arguments) fails with `AlreadyInitialized`
and returns the governance state — admin, fee rate, treasury, resolver,
pause flag, order count — exactly unchanged. -/
theorem C8_initialize_once (st : ContractState) (a : Address) (r : Nat) (t d : Address)
    (hsucc : (initializeContract st a r t d).2 = none) :
    (initializeContract st a r t d).1.admin.isSome ∧
    (∀ c w o, w.state.admin.isSome = true → (step c w o).1.state.admin.isSome = true) ∧
    (∀ st' : ContractState, st'.admin.isSome → ∀ a' r' t' d',
        initializeContract st' a' r' t' d' = (st', some Error.AlreadyInitialized)) := by
  refine ⟨?_, ?_, ?_⟩
  · unfold initializeContract at hsucc ⊢
    split_ifs at hsucc ⊢ <;> simp_all
  · intro c w o h
    cases o with
    | opInitialize a' r' t' d' =>
      simp only [step, liftSt, initializeContract]
      split_ifs <;> simp_all
    | opSetAdmin a' =>
      obtain ⟨x, hx⟩ := Option.isSome_iff_exists.mp h
      simp only [step, liftSt, set_admin, hx]
      split_ifs <;> simp [hx]
    | opSetFeeRate r' =>
      obtain ⟨x, hx⟩ := Option.isSome_iff_exists.mp h
      simp only [step, liftSt, set_fee_rate, hx]
      split_ifs <;> simp [hx]
    | opSetFeeTreasury t' =>
      obtain ⟨x, hx⟩ := Option.isSome_iff_exists.mp h
      simp only [step, liftSt, set_fee_treasury, hx]
      split_ifs <;> simp [hx]
    | opSetDisputeResolver d' =>
      obtain ⟨x, hx⟩ := Option.isSome_iff_exists.mp h
      simp only [step, liftSt, set_dispute_resolver, hx]
      split_ifs <;> simp [hx]
    | opPause =>
      obtain ⟨x, hx⟩ := Option.isSome_iff_exists.mp h
      simp only [step, liftSt, pause, hx]
      split_ifs <;> simp [hx]
    | opUnpause =>
      obtain ⟨x, hx⟩ := Option.isSome_iff_exists.mp h
      simp only [step, liftSt, unpause, hx]
      split_ifs <;> simp [hx]
    | opAcceptOrder oid b =>
      rw [step, (accept_order_instance_fields c w oid b).1]
      exact h
  · intro st' h a' r' t' d'
    unfold initializeContract
    rw [if_pos h]

/-- C8 witness: initializing genesis, then initializing again, fails
the second time with `AlreadyInitialized` and an unchanged state. -/
theorem C8_initialize_once_witness :
    (initializeContract genesis.state 3 50 7 8).1.admin.isSome ∧
    (∀ c w o, w.state.admin.isSome = true → (step c w o).1.state.admin.isSome = true) ∧
    (∀ st' : ContractState, st'.admin.isSome → ∀ a' r' t' d',
        initializeContract st' a' r' t' d' = (st', some Error.AlreadyInitialized)) :=
  C8_initialize_once genesis.state 3 50 7 8 (by decide)

/-- C9: for the spec-modelled settlement (the `release`/`resolve` code
is missing from the source fragment), the buyer payout plus the
treasury fee always equals the order amount, the fee is exactly
`floor(amount * fee_rate / 10000)` (characterized by the division
inequalities), resolve-favor-buyer performs the same split as
`release`, and resolve-favor-seller returns the full amount to the
seller with zero fee. -/
theorem C9_settlement_split (seller buyer treasury : Address) (amount : Int)
    (fee_rate : Nat) (hamt : 0 ≤ amount) :
    legsTotal (release_legs buyer treasury amount fee_rate) = amount ∧
    release_legs buyer treasury amount fee_rate =
      [(buyer, amount - compute_fee amount fee_rate),
       (treasury, compute_fee amount fee_rate)] ∧
    0 ≤ compute_fee amount fee_rate ∧
    compute_fee amount fee_rate * 10000 ≤ amount * (fee_rate : Int) ∧
    amount * (fee_rate : Int) < compute_fee amount fee_rate * 10000 + 10000 ∧
    resolve_legs ResolveOutcome.FavorBuyer seller buyer treasury amount fee_rate =
      release_legs buyer treasury amount fee_rate ∧
    resolve_legs ResolveOutcome.FavorSeller seller buyer treasury amount fee_rate =
      [(seller, amount)] ∧
    legsTotal (resolve_legs ResolveOutcome.FavorSeller seller buyer treasury amount
      fee_rate) = amount := by
  have hx := Int.ediv_add_emod (amount * (fee_rate : Int)) 10000
  have hm1 := Int.emod_nonneg (amount * (fee_rate : Int))
    (by norm_num : (10000 : Int) ≠ 0)
  have hm2 := Int.emod_lt_of_pos (amount * (fee_rate : Int))
    (by norm_num : (0 : Int) < 10000)
  have hnn : 0 ≤ amount * (fee_rate : Int) :=
    mul_nonneg hamt (Int.natCast_nonneg fee_rate)
  refine ⟨?_, rfl, ?_, ?_, ?_, rfl, rfl, ?_⟩
  · simp [legsTotal, release_legs]
  · unfold compute_fee
    omega
  · unfold compute_fee
    omega
  · unfold compute_fee
    omega
  · simp [legsTotal, resolve_legs]

/-- C9 witness: the §8 scenario — amount 1000 at 50 basis points gives
fee 5, buyer payout 995. -/
theorem C9_settlement_split_witness :
    legsTotal (release_legs 2 7 1000 50) = 1000 ∧
    release_legs 2 7 1000 50 =
      [(2, 1000 - compute_fee 1000 50), (7, compute_fee 1000 50)] ∧
    0 ≤ compute_fee 1000 50 ∧
    compute_fee 1000 50 * 10000 ≤ 1000 * (50 : Int) ∧
    1000 * (50 : Int) < compute_fee 1000 50 * 10000 + 10000 ∧
    resolve_legs ResolveOutcome.FavorBuyer 5 2 7 1000 50 = release_legs 2 7 1000 50 ∧
    resolve_legs ResolveOutcome.FavorSeller 5 2 7 1000 50 = [(5, 1000)] ∧
    legsTotal (resolve_legs ResolveOutcome.FavorSeller 5 2 7 1000 50) = 1000 :=
  C9_settlement_split 5 2 7 1000 50 (by decide)

/-- C10: a state in which the pause flag was never written reads as not
paused: `is_paused` returns `false`, and `accept_order`'s pause guard
never rejects with `ContractPaused` there. -/
theorem C10_absent_pause_flag (w : World) (h : w.state.is_paused = none) :
    is_paused w.state = false ∧
    (∀ c oid b, (accept_order c w oid b).2 ≠ some Error.ContractPaused) := by
  have hf : is_paused w.state = false := by simp [is_paused, h]
  exact ⟨hf, fun c oid b => accept_order_unpaused_ne c w oid b hf⟩

/-- C10 witness: the genesis world (flag never written) reads as not
paused and a concrete accept is not rejected on the pause check. -/
theorem C10_absent_pause_flag_witness :
    is_paused genesis.state = false ∧
    (∀ c oid b, (accept_order c genesis oid b).2 ≠ some Error.ContractPaused) :=
  C10_absent_pause_flag genesis rfl

end Aframp
